import Mathlib

/-!
Shallow embedding of `starter_kit/solver.py` (antenna placement solver):
the antenna type table, `Building`/`Antenna` entities, the `SpatialIndex`
grid, and the `Solver` operations (`generate_candidate`, `step`,
`_try_optimize_type`, `_try_merge`, `_try_remove`, `_load_solution`,
`_compute_cost`, `_is_valid_solution`).

Python integers are `Int` (coordinates) and `Nat` (demands, costs,
capacities).  Python's floor division `//` is `Int.fdiv`.  The solver's
`random.Random` is modelled by explicit oracle parameters (a sampler for
`rng.sample`, a permutation for `rng.shuffle`); `building_map` lookup is
totalised with a default building (Python would raise `KeyError`, which
only valid inputs avoid).  Python `set` iteration, whose order is
unspecified, is canonicalised to a deduplicated list.
-/

/-- The four antenna type names, `ANTENNA_ORDER = [Nano, Spot, Density, MaxRange]`. -/
inductive AType where
  | Nano | Spot | Density | MaxRange
deriving DecidableEq, Repr

/-- `ANTENNA_ORDER` from solver.py. -/
def ANTENNA_ORDER : List AType := [.Nano, .Spot, .Density, .MaxRange]

/-- One row of the `ANTENNA_TYPES` table. -/
structure ASpec where
  range : Nat
  capacity : Nat
  cost_on : Nat
  cost_off : Nat
deriving DecidableEq, Repr

/-- The `ANTENNA_TYPES` table from solver.py. -/
def ANTENNA_TYPES : AType → ASpec
  | .Nano => ⟨50, 200, 5000, 6000⟩
  | .Spot => ⟨100, 800, 15000, 20000⟩
  | .Density => ⟨150, 5000, 30000, 50000⟩
  | .MaxRange => ⟨400, 3500, 40000, 50000⟩

/-- Index of a type in `ANTENNA_ORDER` (`ANTENNA_ORDER.index(t)` in Python). -/
def typeIdx : AType → Nat
  | .Nano => 0 | .Spot => 1 | .Density => 2 | .MaxRange => 3

/-- `Building` from solver.py: id, coordinates, three period demands. -/
structure Building where
  id : Nat
  x : Int
  y : Int
  peak : Nat
  offpeak : Nat
  night : Nat
deriving DecidableEq, Repr

instance : Inhabited Building := ⟨⟨0, 0, 0, 0, 0, 0⟩⟩

/-- `Building.max_demand = max(peak, offpeak, night)`. -/
def Building.max_demand (b : Building) : Nat := max (max b.peak b.offpeak) b.night

/-- `Antenna` from solver.py.  `spec` is not stored: the Python object keeps
`self.spec = ANTENNA_TYPES[self.type]` in sync with `type` at every
assignment, so it is derived here as `ANTENNA_TYPES a.type`. -/
structure Antenna where
  type : AType
  x : Int
  y : Int
  buildings : List Nat
  load_peak : Nat
  load_offpeak : Nat
  load_night : Nat
deriving DecidableEq, Repr

/-- `Antenna.max_load`. -/
def Antenna.max_load (a : Antenna) : Nat := max (max a.load_peak a.load_offpeak) a.load_night

/-- Squared Euclidean distance between two integer points. -/
def distSq (x1 y1 x2 y2 : Int) : Int := (x1 - x2) * (x1 - x2) + (y1 - y2) * (y1 - y2)

/-- `Antenna.can_reach(building)`: squared distance within squared range. -/
def Antenna.can_reach (a : Antenna) (b : Building) : Bool :=
  distSq a.x a.y b.x b.y ≤ ((ANTENNA_TYPES a.type).range : Int) ^ 2

/-- The solver's per-dataset context: parsed buildings
(`self.buildings`), with `building_map` and `building_positions` derived. -/
structure Env where
  buildings : List Building

/-- `self.building_map[bid]`, totalised with a default building. -/
def Env.bmap (env : Env) (bid : Nat) : Building :=
  (env.buildings.find? (fun b => b.id = bid)).getD default

/-- `self.building_positions` as a list of coordinate pairs. -/
def Env.building_positions (env : Env) : List (Int × Int) :=
  env.buildings.map (fun b => (b.x, b.y))

/-- `Antenna.cost(building_positions)`: on-building discount when the
antenna's position coincides with some building's position. -/
def Antenna.cost (env : Env) (a : Antenna) : Nat :=
  if (a.x, a.y) ∈ env.building_positions then (ANTENNA_TYPES a.type).cost_on
  else (ANTENNA_TYPES a.type).cost_off

/-- `Solver._compute_cost`: total cost of an antenna list. -/
def computeCost (env : Env) (ants : List Antenna) : Nat :=
  (ants.map (Antenna.cost env)).sum

/-! ## SpatialIndex -/

/-- `SpatialIndex._cell`: Python floor division on both coordinates. -/
def sCell (cell_size : Int) (x y : Int) : Int × Int := (x.fdiv cell_size, y.fdiv cell_size)

/-- The grid of a `SpatialIndex` after a list of `add(building_id, x, y)`
calls: each cell maps to the ids inserted into it, in insertion order. -/
def sGrid (cell_size : Int) (inserts : List (Nat × Int × Int)) (c : Int × Int) : List Nat :=
  (inserts.filter (fun p => sCell cell_size p.2.1 p.2.2 = c)).map (fun p => p.1)

/-- Python `range(lo, hi + 1)` over integers. -/
def intRange (lo hi : Int) : List Int :=
  (List.range (hi + 1 - lo).toNat).map (fun (k : Nat) => lo + (k : Int))

/-- `SpatialIndex.nearby(x, y, radius)`: union (as a deduplicated list) of
the grid cells within Chebyshev distance `radius // cell_size + 1` of the
query point's cell. -/
def sNearby (cell_size : Int) (inserts : List (Nat × Int × Int))
    (x y radius : Int) : List Nat :=
  let c := sCell cell_size x y
  let cell_radius := radius.fdiv cell_size + 1
  (((intRange (-cell_radius) cell_radius).flatMap (fun dx =>
    (intRange (-cell_radius) cell_radius).flatMap (fun dy =>
      sGrid cell_size inserts (c.1 + dx, c.2 + dy)))) : List Nat).dedup

/-- The index the solver builds: every building inserted at its coordinates,
cell size 100. -/
def Env.spatialInserts (env : Env) : List (Nat × Int × Int) :=
  env.buildings.map (fun b => (b.id, b.x, b.y))

/-! ## Spatial index lemmas -/

/-- Chebyshev distance between two grid cells. -/
def chebyDist (c d : Int × Int) : Int := max |c.1 - d.1| |c.2 - d.2|

/-- Modelled from the spec: the cell radius the specification describes,
`ceil(radius / cell_size) + 1` (the code uses floor division instead). -/
def specCellRadius (radius cell_size : Int) : Int := -((-radius).fdiv cell_size) + 1

theorem mem_intRange {a lo hi : Int} : a ∈ intRange lo hi ↔ lo ≤ a ∧ a ≤ hi := by
  unfold intRange
  simp only [List.mem_map, List.mem_range]
  constructor
  · rintro ⟨k, hk, rfl⟩
    omega
  · rintro ⟨h1, h2⟩
    exact ⟨(a - lo).toNat, by omega, by omega⟩

theorem mem_sGrid {cs : Int} {ins : List (Nat × Int × Int)} {c : Int × Int} {bid : Nat} :
    bid ∈ sGrid cs ins c ↔ ∃ p ∈ ins, sCell cs p.2.1 p.2.2 = c ∧ p.1 = bid := by
  unfold sGrid
  simp only [List.mem_map, List.mem_filter, decide_eq_true_eq]
  constructor
  · rintro ⟨p, ⟨hp, hc⟩, rfl⟩; exact ⟨p, hp, hc, rfl⟩
  · rintro ⟨p, hp, hc, rfl⟩; exact ⟨p, ⟨hp, hc⟩, rfl⟩

/-- Membership in `SpatialIndex.nearby`: exactly the ids inserted into a cell
within Chebyshev distance `radius // cell_size + 1` of the query's cell. -/
theorem mem_sNearby {cs : Int} {ins : List (Nat × Int × Int)} {x y r : Int} {bid : Nat} :
    bid ∈ sNearby cs ins x y r ↔
      ∃ p ∈ ins, p.1 = bid ∧
        chebyDist (sCell cs p.2.1 p.2.2) (sCell cs x y) ≤ r.fdiv cs + 1 := by
  unfold sNearby chebyDist
  simp only [List.mem_dedup, List.mem_flatMap, mem_intRange, mem_sGrid]
  constructor
  · rintro ⟨dx, ⟨hdx1, hdx2⟩, dy, ⟨hdy1, hdy2⟩, p, hp, hc, rfl⟩
    refine ⟨p, hp, rfl, ?_⟩
    have h1 : (sCell cs p.2.1 p.2.2).1 = (sCell cs x y).1 + dx := by rw [hc]
    have h2 : (sCell cs p.2.1 p.2.2).2 = (sCell cs x y).2 + dy := by rw [hc]
    simp only [max_le_iff, abs_le]
    omega
  · rintro ⟨p, hp, rfl, hd⟩
    simp only [max_le_iff, abs_le] at hd
    refine ⟨(sCell cs p.2.1 p.2.2).1 - (sCell cs x y).1, by omega,
            (sCell cs p.2.1 p.2.2).2 - (sCell cs x y).2, by omega,
            p, hp, ?_, rfl⟩
    have e1 : (sCell cs x y).1 + ((sCell cs p.2.1 p.2.2).1 - (sCell cs x y).1)
        = (sCell cs p.2.1 p.2.2).1 := by ring
    have e2 : (sCell cs x y).2 + ((sCell cs p.2.1 p.2.2).2 - (sCell cs x y).2)
        = (sCell cs p.2.1 p.2.2).2 := by ring
    rw [e1, e2]

/-- If two coordinates are within `r` of each other, their grid cells are
within `r // cell_size + 1` of each other. -/
theorem fdiv_cell_bound {cs a b r : Int} (hcs : 0 < cs) (hr : 0 ≤ r)
    (h : |a - b| ≤ r) : |a.fdiv cs - b.fdiv cs| ≤ r.fdiv cs + 1 := by
  rw [Int.fdiv_eq_ediv _ (le_of_lt hcs), Int.fdiv_eq_ediv _ (le_of_lt hcs),
      Int.fdiv_eq_ediv _ (le_of_lt hcs)]
  rw [abs_le] at h ⊢
  have hrq : r < (r / cs + 1) * cs := Int.lt_ediv_add_one_mul_self r hcs
  constructor
  · have h1 : b ≤ a + (r / cs + 1) * cs := by omega
    have h2 : b / cs ≤ (a + (r / cs + 1) * cs) / cs := Int.ediv_le_ediv hcs h1
    rw [Int.add_mul_ediv_right _ _ (by omega : cs ≠ 0)] at h2
    omega
  · have h1 : a ≤ b + (r / cs + 1) * cs := by omega
    have h2 : a / cs ≤ (b + (r / cs + 1) * cs) / cs := Int.ediv_le_ediv hcs h1
    rw [Int.add_mul_ediv_right _ _ (by omega : cs ≠ 0)] at h2
    omega

/-- C4: `SpatialIndex.nearby` never under-approximates: every inserted
building within squared distance `r^2` of the query point is in the result. -/
theorem sNearby_no_false_negative {cs : Int} {ins : List (Nat × Int × Int)}
    {x y r : Int} {bid : Nat} {bx bby : Int}
    (hcs : 0 < cs) (hr : 0 ≤ r) (hmem : (bid, bx, bby) ∈ ins)
    (hdist : distSq x y bx bby ≤ r ^ 2) :
    bid ∈ sNearby cs ins x y r := by
  rw [mem_sNearby]
  refine ⟨(bid, bx, bby), hmem, rfl, ?_⟩
  have hx2 : (bx - x) ^ 2 ≤ r ^ 2 := by
    unfold distSq at hdist; nlinarith [sq_nonneg (y - bby), sq_nonneg (bx - x)]
  have hy2 : (bby - y) ^ 2 ≤ r ^ 2 := by
    unfold distSq at hdist; nlinarith [sq_nonneg (x - bx), sq_nonneg (bby - y)]
  have hx : |bx - x| ≤ r := abs_le.mpr (abs_le_of_sq_le_sq' hx2 hr)
  have hy : |bby - y| ≤ r := abs_le.mpr (abs_le_of_sq_le_sq' hy2 hr)
  unfold chebyDist sCell
  simp only [max_le_iff]
  exact ⟨fdiv_cell_bound hcs hr hx, fdiv_cell_bound hcs hr hy⟩

/-- Witness for C4 at a concrete input: building 1 at (250, 0) is within
radius 30 of the query point (230, 0) and is found by `nearby`. -/
theorem sNearby_no_false_negative_witness :
    1 ∈ sNearby 100 [(1, 250, 0)] 230 0 30 :=
  @sNearby_no_false_negative 100 [(1, 250, 0)] 230 0 30 1 250 0
    (by decide) (by decide) (by decide) (by decide)

/-- C5 counterexample: the claim says `nearby` unions all cells within
Chebyshev distance `ceil(radius / cell_size) + 1` of the query's cell.  With
radius 50 and cell size 100 that bound is 2, and the building inserted at
(250, 0) lies in cell (2, 0), within Chebyshev distance 2 of the query cell
(0, 0) — yet `nearby(0, 0, 50)` does not return it: the code uses floor
division, giving cell radius `50 // 100 + 1 = 1`. -/
theorem sNearby_ceil_counterexample :
    specCellRadius 50 100 = 2 ∧
    chebyDist (sCell 100 250 0) (sCell 100 0 0) ≤ specCellRadius 50 100 ∧
    1 ∉ sNearby 100 [(1, 250, 0)] 0 0 50 := by decide

/-- C5 (amended): for every query, `SpatialIndex.nearby` computes the cell of
(x, y) and unions the buildings of exactly the cells within Chebyshev
distance `radius // cell_size + 1` (floor division, not ceiling) of that
cell. -/
theorem sNearby_cell_radius_floor {cs : Int} {ins : List (Nat × Int × Int)}
    {x y r : Int} {bid : Nat} :
    bid ∈ sNearby cs ins x y r ↔
      ∃ p ∈ ins, p.1 = bid ∧
        chebyDist (sCell cs p.2.1 p.2.2) (sCell cs x y) ≤ r.fdiv cs + 1 :=
  mem_sNearby

/-! ## `Solver._try_optimize_type` -/

/-- The inner checks of `_try_optimize_type` for one candidate type: its
capacity covers the antenna's max load (`spec['capacity'] < max_load`
skips) and every assigned building is within its range. -/
def typeFeasible (env : Env) (a : Antenna) (t : AType) : Bool :=
  a.max_load ≤ (ANTENNA_TYPES t).capacity &&
  a.buildings.all (fun bid =>
    distSq a.x a.y (env.bmap bid).x (env.bmap bid).y ≤ ((ANTENNA_TYPES t).range : Int) ^ 2)

/-- One antenna's pass of `_try_optimize_type`: scan the types strictly below
the current one in `ANTENNA_ORDER`, switch to the first feasible one
(committing the change whether or not the cost strictly drops), and report
whether the cost strictly dropped. -/
def optimizeOne (env : Env) (a : Antenna) : Bool × Antenna :=
  match (ANTENNA_ORDER.take (typeIdx a.type)).find? (typeFeasible env a) with
  | none => (false, a)
  | some t =>
      let a' := { a with type := t }
      (a'.cost env < a.cost env, a')

/-- `Solver._try_optimize_type`: every antenna is processed independently;
the returned flag is true when some antenna's cost strictly dropped. -/
def tryOptimizeType (env : Env) (ants : List Antenna) : Bool × List Antenna :=
  ((ants.map (optimizeOne env)).any (fun r => r.1),
   (ants.map (optimizeOne env)).map (fun r => r.2))

/-- Cost tiers are monotone in `ANTENNA_ORDER` position. -/
theorem cost_tier_mono (t u : AType) (h : typeIdx t < typeIdx u) :
    (ANTENNA_TYPES t).cost_on ≤ (ANTENNA_TYPES u).cost_on ∧
    (ANTENNA_TYPES t).cost_off ≤ (ANTENNA_TYPES u).cost_off := by
  cases t <;> cases u <;> simp_all [typeIdx, ANTENNA_TYPES]

/-- Members of the scanned prefix sit strictly below the current type. -/
theorem mem_take_typeIdx {t u : AType} (h : u ∈ ANTENNA_ORDER.take (typeIdx t)) :
    typeIdx u < typeIdx t := by
  cases t <;> simp_all [ANTENNA_ORDER, typeIdx] <;> rcases h with rfl | rfl | rfl <;> simp [typeIdx]

/-- `optimizeOne` keeps position, buildings and loads, moves the type only
strictly down `ANTENNA_ORDER`, and never increases the antenna's cost. -/
theorem optimizeOne_shape (env : Env) (a : Antenna) :
    (optimizeOne env a).2.x = a.x ∧ (optimizeOne env a).2.y = a.y ∧
    (optimizeOne env a).2.buildings = a.buildings ∧
    (optimizeOne env a).2.load_peak = a.load_peak ∧
    (optimizeOne env a).2.load_offpeak = a.load_offpeak ∧
    (optimizeOne env a).2.load_night = a.load_night ∧
    ((optimizeOne env a).2.type ≠ a.type → typeIdx (optimizeOne env a).2.type < typeIdx a.type) ∧
    (optimizeOne env a).2.cost env ≤ a.cost env := by
  unfold optimizeOne
  cases hf : (ANTENNA_ORDER.take (typeIdx a.type)).find? (typeFeasible env a) with
  | none => simp
  | some t =>
      have ht : t ∈ ANTENNA_ORDER.take (typeIdx a.type) := List.mem_of_find?_eq_some hf
      have hlt := mem_take_typeIdx ht
      have hcost := cost_tier_mono t a.type hlt
      refine ⟨rfl, rfl, rfl, rfl, rfl, rfl, fun _ => hlt, ?_⟩
      unfold Antenna.cost
      by_cases hp : (a.x, a.y) ∈ env.building_positions <;> simp [hp, hcost.1, hcost.2]

/-- If the scan of a prefix of `ANTENNA_ORDER` finds `t` first, the prefix
strictly below `t` contains no hit. -/
theorem find?_take_none_of_found {p : AType → Bool} {n : Nat} {t : AType}
    (hf : (ANTENNA_ORDER.take n).find? p = some t) :
    (ANTENNA_ORDER.take (typeIdx t)).find? p = none := by
  cases t <;> rcases n with _ | _ | _ | _ | n <;>
  cases hN : p AType.Nano <;> cases hS : p AType.Spot <;>
  cases hD : p AType.Density <;> cases hM : p AType.MaxRange <;>
  simp_all [ANTENNA_ORDER, typeIdx, List.find?_cons]

/-- A second pass of `optimizeOne` finds nothing left to change. -/
theorem optimizeOne_fix (env : Env) (a : Antenna) :
    (optimizeOne env (optimizeOne env a).2).2 = (optimizeOne env a).2 := by
  rcases hf : (ANTENNA_ORDER.take (typeIdx a.type)).find? (typeFeasible env a) with _ | t
  · have h1 : (optimizeOne env a).2 = a := by simp [optimizeOne, hf]
    rw [h1]
    exact h1
  · have h1 : (optimizeOne env a).2 = { a with type := t } := by simp [optimizeOne, hf]
    have hfeq : typeFeasible env { a with type := t } = typeFeasible env a := rfl
    have h2 : (ANTENNA_ORDER.take (typeIdx t)).find? (typeFeasible env a) = none :=
      find?_take_none_of_found hf
    rw [h1]
    simp [optimizeOne, hfeq, h2]

/-- C9: idempotence of `_try_optimize_type`: calling it twice in succession
leaves the antenna list of the second call equal to that of the first. -/
theorem tryOptimizeType_idempotent (env : Env) (ants : List Antenna) :
    (tryOptimizeType env (tryOptimizeType env ants).2).2 = (tryOptimizeType env ants).2 := by
  unfold tryOptimizeType
  simp only [List.map_map]
  exact List.map_congr_left (fun a _ => optimizeOne_fix env a)

/-- C3 counterexample: an off-building MaxRange antenna whose single building
is only reachable by the Density tier gets its type changed to Density even
though both cost 50000 there — the claim says an antenna whose every feasible
cheaper-tier candidate has equal cost keeps its original type. -/
theorem tryOptimizeType_equal_cost_change :
    (tryOptimizeType ⟨[⟨1, 0, 120, 10, 10, 10⟩]⟩
        [⟨AType.MaxRange, 0, 0, [1], 10, 10, 10⟩]).2
      = [⟨AType.Density, 0, 0, [1], 10, 10, 10⟩] ∧
    computeCost ⟨[⟨1, 0, 120, 10, 10, 10⟩]⟩ [⟨AType.Density, 0, 0, [1], 10, 10, 10⟩]
      = computeCost ⟨[⟨1, 0, 120, 10, 10, 10⟩]⟩ [⟨AType.MaxRange, 0, 0, [1], 10, 10, 10⟩] := by
  decide

/-- C3 (amended): `_try_optimize_type` keeps every antenna's position and
buildings, moves a type only strictly down `ANTENNA_ORDER`, and never
increases any antenna's cost — but the switch is committed as soon as a
feasible cheaper-tier type is found, so the new cost may equal the old one
(MaxRange → Density off-building, both 50000) instead of being strictly
lower. -/
theorem tryOptimizeType_nonincreasing (env : Env) (ants : List Antenna) :
    List.Forall₂ (fun a' a => a'.cost env ≤ a.cost env ∧ a'.buildings = a.buildings ∧
        a'.x = a.x ∧ a'.y = a.y ∧ (a'.type ≠ a.type → typeIdx a'.type < typeIdx a.type))
      ((tryOptimizeType env ants).2) ants := by
  unfold tryOptimizeType
  simp only [List.map_map]
  induction ants with
  | nil => exact List.Forall₂.nil
  | cons a l ih =>
      refine List.Forall₂.cons ?_ ih
      obtain ⟨hx, hy, hb, _, _, _, hty, hc⟩ := optimizeOne_shape env a
      exact ⟨hc, hb, hx, hy, hty⟩

/-! ## `Solver._add_antenna`, `Solver._centroid`, `Solver._try_merge` -/

instance : Inhabited Antenna := ⟨⟨AType.Nano, 0, 0, [], 0, 0, 0⟩⟩

/-- `Solver._add_antenna`: build an antenna whose loads are the sums of its
buildings' demands (the caller appends it to the antenna list). -/
def addAntenna (env : Env) (t : AType) (x y : Int) (bids : List Nat) : Antenna :=
  { type := t, x := x, y := y, buildings := bids,
    load_peak := (bids.map (fun bid => (env.bmap bid).peak)).sum,
    load_offpeak := (bids.map (fun bid => (env.bmap bid).offpeak)).sum,
    load_night := (bids.map (fun bid => (env.bmap bid).night)).sum }

/-- `Solver._centroid`: integer-truncated (Python floor-division) average of
the buildings' coordinates; (0, 0) for the empty collection. -/
def centroid (env : Env) (bids : List Nat) : Int × Int :=
  if bids = [] then (0, 0)
  else (((bids.map (fun bid => (env.bmap bid).x)).sum).fdiv bids.length,
        ((bids.map (fun bid => (env.bmap bid).y)).sum).fdiv bids.length)

/-- Combined per-period max load of two antennas (from their cached loads),
as `_try_merge` computes it. -/
def mergedMaxLoad (a1 a2 : Antenna) : Nat :=
  max (max (a1.load_peak + a2.load_peak) (a1.load_offpeak + a2.load_offpeak))
    (a1.load_night + a2.load_night)

/-- One pair's attempt inside `_try_merge`: skip if the antennas are more
than 200 apart; otherwise take the first type in `ANTENNA_ORDER` whose
capacity covers the combined load and merge at the centroid of the unioned
buildings if that type reaches them all and is strictly cheaper (the Python
`break` tries no further type for the pair). -/
def mergePair (env : Env) (ants : List Antenna) (i j : Nat) : Option (List Antenna) :=
  let ant1 := ants.getD i default
  let ant2 := ants.getD j default
  if distSq ant1.x ant1.y ant2.x ant2.y > 200 ^ 2 then none
  else
    let merged := ant1.buildings ++ ant2.buildings
    match ANTENNA_ORDER.find? (fun t => mergedMaxLoad ant1 ant2 ≤ (ANTENNA_TYPES t).capacity) with
    | none => none
    | some t =>
        let c := centroid env merged.dedup
        if merged.all (fun bid =>
            distSq c.1 c.2 (env.bmap bid).x (env.bmap bid).y
              ≤ ((ANTENNA_TYPES t).range : Int) ^ 2) then
          let new_cost := if (c.1, c.2) ∈ env.building_positions
            then (ANTENNA_TYPES t).cost_on else (ANTENNA_TYPES t).cost_off
          if new_cost < ant1.cost env + ant2.cost env then
            some (((ants.eraseIdx j).eraseIdx i) ++ [addAntenna env t c.1 c.2 merged])
          else none
        else none

/-- The index pairs `(i, j)`, `i < j`, in the order the double loop of
`_try_merge` visits them. -/
def pairsList (n : Nat) : List (Nat × Nat) :=
  (List.range n).flatMap (fun i => ((List.range n).drop (i + 1)).map (fun j => (i, j)))

/-- `Solver._try_merge`: first successful pair merge wins; `False` and an
untouched list otherwise. -/
def tryMerge (env : Env) (ants : List Antenna) : Bool × List Antenna :=
  if ants.length < 2 then (false, ants)
  else
    match (pairsList ants.length).findSome? (fun p => mergePair env ants p.1 p.2) with
    | none => (false, ants)
    | some l => (true, l)

/-- Dataset of the C8 merge scenario: three buildings on a line. -/
def envM : Env :=
  ⟨[⟨1, 10, 0, 10, 10, 10⟩, ⟨3, 90, 0, 10, 10, 10⟩, ⟨2, 170, 0, 10, 10, 10⟩]⟩

/-- First Spot antenna of the C8 scenario (off-building, at (0, 0)). -/
def aM1 : Antenna := ⟨AType.Spot, 0, 0, [1, 3], 20, 20, 20⟩

/-- Second Spot antenna of the C8 scenario (off-building, at (180, 0)). -/
def aM2 : Antenna := ⟨AType.Spot, 180, 0, [2], 10, 10, 10⟩

/-- C8 counterexample: two Spot antennas exactly 180 apart, combined load 30
under Density's capacity, all unioned buildings within Density's range of
their centroid (90, 0), and 2·20000 > 30000 — every hypothesis of the claim
holds, yet `_try_merge` returns False and changes nothing: it tries only the
first capacity-sufficient type (Nano, capacity 200 ≥ 30), whose range check
fails, and the `break` abandons the pair. -/
theorem tryMerge_scenario_counterexample :
    (aM1.type = AType.Spot ∧ aM2.type = AType.Spot ∧
     distSq aM1.x aM1.y aM2.x aM2.y = 180 ^ 2 ∧
     mergedMaxLoad aM1 aM2 ≤ (ANTENNA_TYPES AType.Density).capacity ∧
     ((aM1.buildings ++ aM2.buildings).all (fun bid =>
        distSq (centroid envM ((aM1.buildings ++ aM2.buildings).dedup)).1
               (centroid envM ((aM1.buildings ++ aM2.buildings).dedup)).2
               (envM.bmap bid).x (envM.bmap bid).y
          ≤ ((ANTENNA_TYPES AType.Density).range : Int) ^ 2) = true) ∧
     (if ((centroid envM ((aM1.buildings ++ aM2.buildings).dedup)).1,
          (centroid envM ((aM1.buildings ++ aM2.buildings).dedup)).2)
          ∈ envM.building_positions
      then (ANTENNA_TYPES AType.Density).cost_on
      else (ANTENNA_TYPES AType.Density).cost_off) < aM1.cost envM + aM2.cost envM) ∧
    tryMerge envM [aM1, aM2] = (false, [aM1, aM2]) := by
  decide

/-- C8 (amended): for a two-antenna state, when the combined load moreover
exceeds Spot's capacity (so Density is the first capacity-sufficient type in
`ANTENNA_ORDER`), the pair within 200 of each other whose unioned buildings
fit in Density's range of their centroid and whose merged cost is strictly
cheaper is replaced by one Density antenna at the centroid, with success
reported; and whenever `_try_merge` reports failure the antenna list is
returned unchanged. -/
theorem tryMerge_density_when_needed (env : Env) (a1 a2 : Antenna)
    (h1 : a1.type = AType.Spot) (h2 : a2.type = AType.Spot)
    (hdist : distSq a1.x a1.y a2.x a2.y ≤ 200 ^ 2)
    (hlo : 800 < mergedMaxLoad a1 a2) (hhi : mergedMaxLoad a1 a2 ≤ 5000)
    (hreach : ∀ bid ∈ a1.buildings ++ a2.buildings,
       distSq (centroid env ((a1.buildings ++ a2.buildings).dedup)).1
              (centroid env ((a1.buildings ++ a2.buildings).dedup)).2
              (env.bmap bid).x (env.bmap bid).y ≤ (150 : Int) ^ 2)
    (hcost : (if ((centroid env ((a1.buildings ++ a2.buildings).dedup)).1,
                  (centroid env ((a1.buildings ++ a2.buildings).dedup)).2)
                  ∈ env.building_positions
              then (ANTENNA_TYPES AType.Density).cost_on
              else (ANTENNA_TYPES AType.Density).cost_off) < a1.cost env + a2.cost env) :
    tryMerge env [a1, a2] = (true,
      [addAntenna env AType.Density
        (centroid env ((a1.buildings ++ a2.buildings).dedup)).1
        (centroid env ((a1.buildings ++ a2.buildings).dedup)).2
        (a1.buildings ++ a2.buildings)]) ∧
    (∀ ants : List Antenna, (tryMerge env ants).1 = false → (tryMerge env ants).2 = ants) := by
  constructor
  · have hpl : pairsList [a1, a2].length = [(0, 1)] := by
      show pairsList 2 = [(0, 1)]
      decide
    have e1 : decide (mergedMaxLoad a1 a2 ≤ (ANTENNA_TYPES AType.Nano).capacity) = false := by
      simp only [ANTENNA_TYPES, decide_eq_false_iff_not]; omega
    have e2 : decide (mergedMaxLoad a1 a2 ≤ (ANTENNA_TYPES AType.Spot).capacity) = false := by
      simp only [ANTENNA_TYPES, decide_eq_false_iff_not]; omega
    have e3 : decide (mergedMaxLoad a1 a2 ≤ (ANTENNA_TYPES AType.Density).capacity) = true := by
      simp only [ANTENNA_TYPES, decide_eq_true_eq]; omega
    have hfind : ANTENNA_ORDER.find?
        (fun t => mergedMaxLoad a1 a2 ≤ (ANTENNA_TYPES t).capacity) = some AType.Density := by
      simp only [ANTENNA_ORDER, List.find?_cons, e1, e2, e3]
    have hmp : mergePair env [a1, a2] 0 1 = some
        [addAntenna env AType.Density
          (centroid env ((a1.buildings ++ a2.buildings).dedup)).1
          (centroid env ((a1.buildings ++ a2.buildings).dedup)).2
          (a1.buildings ++ a2.buildings)] := by
      unfold mergePair
      simp only [List.getD_cons_zero, List.getD_cons_succ]
      rw [if_neg (not_lt.mpr hdist)]
      simp only [hfind]
      rw [if_pos (by
        rw [List.all_eq_true]
        intro bid hbid
        simp only [decide_eq_true_eq]
        exact hreach bid hbid)]
      rw [if_pos hcost]
      rfl
    unfold tryMerge
    rw [if_neg (by simp only [List.length_cons, List.length_nil]; omega)]
    simp only [hpl, List.findSome?_cons, hmp]
  · intro ants h
    unfold tryMerge at h ⊢
    by_cases hl : ants.length < 2
    · simp [hl]
    · simp only [hl, if_false] at h ⊢
      cases hm : (pairsList ants.length).findSome? (fun p => mergePair env ants p.1 p.2) with
      | none => simp [hm]
      | some l => simp [hm] at h

/-- Dataset witnessing the amended C8 merge: same line of buildings with
per-period demand 300 each, so the combined load 900 exceeds Spot's 800. -/
def envW : Env :=
  ⟨[⟨1, 10, 0, 300, 300, 300⟩, ⟨3, 90, 0, 300, 300, 300⟩, ⟨2, 170, 0, 300, 300, 300⟩]⟩

/-- First Spot antenna of the amended C8 witness. -/
def aW1 : Antenna := ⟨AType.Spot, 0, 0, [1, 3], 600, 600, 600⟩

/-- Second Spot antenna of the amended C8 witness. -/
def aW2 : Antenna := ⟨AType.Spot, 180, 0, [2], 300, 300, 300⟩

/-- Witness for the amended C8 merge theorem at a concrete state. -/
theorem tryMerge_density_when_needed_witness :
    tryMerge envW [aW1, aW2] = (true,
      [addAntenna envW AType.Density
        (centroid envW ((aW1.buildings ++ aW2.buildings).dedup)).1
        (centroid envW ((aW1.buildings ++ aW2.buildings).dedup)).2
        (aW1.buildings ++ aW2.buildings)]) ∧
    (∀ ants : List Antenna, (tryMerge envW ants).1 = false → (tryMerge envW ants).2 = ants) :=
  tryMerge_density_when_needed envW aW1 aW2 rfl rfl (by decide) (by decide) (by decide)
    (by decide) (by decide)

/-! ## `Solver._try_remove` -/

/-- A per-antenna load triple, as kept in `temp_loads`. -/
abbrev LoadT := Nat × Nat × Nat

/-- The cached loads of an antenna as a `temp_loads` entry. -/
def Antenna.loads (a : Antenna) : LoadT := (a.load_peak, a.load_offpeak, a.load_night)

/-- Add one building's demands to a `temp_loads` entry. -/
def addLoad (t : LoadT) (b : Building) : LoadT :=
  (t.1 + b.peak, t.2.1 + b.offpeak, t.2.2 + b.night)

/-- `max(new_peak, new_offpeak, new_night)` of a `temp_loads` entry. -/
def maxLoadT (t : LoadT) : Nat := max (max t.1 t.2.1) t.2.2

/-- The target-selection scan of `_try_remove` for one building: among the
antennas other than `i` that can reach it and have room against the running
temporary loads, pick the first of maximal capacity margin (strictly greater
margin replaces the incumbent, matching `margin > best_margin`). -/
def btStep (ants : List Antenna) (i : Nat) (temp : List LoadT) (b : Building)
    (acc : Option (Nat × Nat)) (j : Nat) : Option (Nat × Nat) :=
  if j = i then acc
  else
    let other := ants.getD j default
    if other.can_reach b then
      let nl := addLoad (temp.getD j (0, 0, 0)) b
      if maxLoadT nl ≤ (ANTENNA_TYPES other.type).capacity then
        let margin := (ANTENNA_TYPES other.type).capacity - maxLoadT nl
        match acc with
        | none => some (j, margin)
        | some pr => if margin > pr.2 then some (j, margin) else acc
      else acc
    else acc

def bestTarget (ants : List Antenna) (i : Nat) (temp : List LoadT) (b : Building) :
    Option Nat :=
  ((List.range ants.length).foldl (btStep ants i temp b) none).map (fun pr => pr.1)

/-- The planning loop of `_try_remove`: walk the removed antenna's buildings
in order, recording `(building, target)` pairs and accumulating the targets'
temporary loads; fail (Python `break`, skipping the `for`-`else`) as soon as
some building has no feasible target. -/
def planRedistribute (env : Env) (ants : List Antenna) (i : Nat) :
    List Nat → List (Nat × Nat) → List LoadT → Option (List (Nat × Nat))
  | [], plan, _ => some plan
  | bid :: rest, plan, temp =>
      let b := env.bmap bid
      match bestTarget ants i temp b with
      | none => none
      | some t =>
          planRedistribute env ants i rest (plan ++ [(bid, t)])
            (temp.modify (fun l => addLoad l b) t)

/-- Append redistributed buildings to a target antenna and bump its cached
loads by their demand sums, as the commit phase of `_try_remove` does. -/
def applyExtras (env : Env) (a : Antenna) (extras : List Nat) : Antenna :=
  { a with
    buildings := a.buildings ++ extras
    load_peak := a.load_peak + (extras.map (fun bid => (env.bmap bid).peak)).sum
    load_offpeak := a.load_offpeak + (extras.map (fun bid => (env.bmap bid).offpeak)).sum
    load_night := a.load_night + (extras.map (fun bid => (env.bmap bid).night)).sum }

/-- The commit phase of `_try_remove`: group the plan by target, update every
target, and drop antenna `i`. -/
def commitRemove (env : Env) (ants : List Antenna) (i : Nat)
    (plan : List (Nat × Nat)) : List Antenna :=
  (ants.mapIdx (fun j a =>
    applyExtras env a ((plan.filter (fun pr => pr.2 = j)).map (fun pr => pr.1)))).eraseIdx i

/-- One candidate antenna's removal attempt: plan a redistribution of all its
buildings, then commit if the plan has one entry per building (the Python
`len(redistribution) == len(ant.buildings)` check on the dict of planned
buildings). -/
def tryRemoveOne (env : Env) (ants : List Antenna) (i : Nat) : Option (List Antenna) :=
  let ant := ants.getD i default
  match planRedistribute env ants i ant.buildings [] (ants.map Antenna.loads) with
  | none => none
  | some plan =>
      if ((plan.map (fun pr => pr.1)).dedup).length = ant.buildings.length then
        some (commitRemove env ants i plan)
      else none

/-- `Solver._try_remove`: try up to 10 indices of the supplied shuffle order;
first success wins, otherwise report failure with the list untouched. -/
def tryRemove (env : Env) (perm : List Nat) (ants : List Antenna) : Bool × List Antenna :=
  if ants.length ≤ 1 then (false, ants)
  else
    match (perm.take 10).findSome? (fun i => tryRemoveOne env ants i) with
    | none => (false, ants)
    | some l => (true, l)

/-- What a chosen redistribution target guarantees: a real antenna other than
the removed one, able to reach the building, with room for it on top of the
running temporary loads. -/
def targetOk (ants : List Antenna) (i : Nat) (temp : List LoadT) (b : Building)
    (t : Nat) : Prop :=
  t < ants.length ∧ t ≠ i ∧ (ants.getD t default).can_reach b = true ∧
  maxLoadT (addLoad (temp.getD t (0, 0, 0)) b) ≤ (ANTENNA_TYPES (ants.getD t default).type).capacity

theorem btStep_spec {ants : List Antenna} {i : Nat} {temp : List LoadT} {b : Building}
    {acc : Option (Nat × Nat)} {j : Nat} (hj : j < ants.length)
    (hacc : ∀ pr : Nat × Nat, acc = some pr → targetOk ants i temp b pr.1) :
    ∀ pr : Nat × Nat, btStep ants i temp b acc j = some pr → targetOk ants i temp b pr.1 := by
  intro pr h
  unfold btStep at h
  by_cases hji : j = i
  · rw [if_pos hji] at h; exact hacc pr h
  · rw [if_neg hji] at h
    by_cases hreach : (ants.getD j default).can_reach b
    · rw [if_pos hreach] at h
      by_cases hcap : maxLoadT (addLoad (temp.getD j (0, 0, 0)) b)
          ≤ (ANTENNA_TYPES (ants.getD j default).type).capacity
      · rw [if_pos hcap] at h
        cases hc : acc with
        | none =>
            rw [hc] at h
            simp only [Option.some.injEq] at h
            rw [← h]
            exact ⟨hj, hji, hreach, hcap⟩
        | some pr' =>
            rw [hc] at h
            by_cases hm : (ANTENNA_TYPES (ants.getD j default).type).capacity -
                maxLoadT (addLoad (temp.getD j (0, 0, 0)) b) > pr'.2
            · simp only [hm, if_true] at h
              simp only [Option.some.injEq] at h
              rw [← h]
              exact ⟨hj, hji, hreach, hcap⟩
            · simp only [hm, if_false, Option.some.injEq] at h
              exact h ▸ hacc pr' hc
      · rw [if_neg hcap] at h; exact hacc pr h
    · rw [if_neg hreach] at h; exact hacc pr h

theorem foldl_btStep_spec {ants : List Antenna} {i : Nat} {temp : List LoadT} {b : Building} :
    ∀ (l : List Nat) (acc : Option (Nat × Nat)),
      (∀ j ∈ l, j < ants.length) →
      (∀ pr : Nat × Nat, acc = some pr → targetOk ants i temp b pr.1) →
      ∀ pr : Nat × Nat, l.foldl (btStep ants i temp b) acc = some pr →
        targetOk ants i temp b pr.1 := by
  intro l
  induction l with
  | nil => intro acc _ hacc pr h; exact hacc pr h
  | cons j rest ih =>
      intro acc hl hacc pr h
      simp only [List.foldl_cons] at h
      exact ih (btStep ants i temp b acc j)
        (fun x hx => hl x (List.mem_cons_of_mem _ hx))
        (btStep_spec (hl j (List.mem_cons_self _ _)) hacc) pr h

/-- The target `_try_remove` plans for a building is a distinct, reachable,
capacity-respecting antenna. -/
theorem bestTarget_spec {ants : List Antenna} {i : Nat} {temp : List LoadT} {b : Building}
    {t : Nat} (h : bestTarget ants i temp b = some t) : targetOk ants i temp b t := by
  unfold bestTarget at h
  simp only [Option.map_eq_some'] at h
  obtain ⟨pr, hpr, rfl⟩ := h
  exact foldl_btStep_spec (List.range ants.length) none
    (fun j hj => List.mem_range.mp hj) (fun pr' h' => by cases h') pr hpr

/-- `getD` through a `modify` at a possibly different index. -/
theorem getD_modify {α : Type} (f : α → α) (t j : Nat) (l : List α) (d : α) :
    (l.modify f t).getD j d =
      if t = j ∧ j < l.length then f (l.getD j d) else l.getD j d := by
  rw [List.getD_eq_getElem?_getD, List.getD_eq_getElem?_getD, List.getElem?_modify]
  cases h : l[j]? with
  | none =>
      have hj : ¬ j < l.length := by rw [List.getElem?_eq_none_iff] at h; omega
      simp [hj]
  | some a =>
      have hj : j < l.length := by
        rw [List.getElem?_eq_some_iff] at h; exact h.1
      by_cases ht : t = j <;> simp [ht, hj]

/-- Componentwise accumulation of one target's temporary loads. -/
def loadAfter (env : Env) (t0 : LoadT) (bids : List Nat) : LoadT :=
  bids.foldl (fun acc bid => addLoad acc (env.bmap bid)) t0

theorem loadAfter_cons (env : Env) (t0 : LoadT) (bid : Nat) (bids : List Nat) :
    loadAfter env t0 (bid :: bids) = loadAfter env (addLoad t0 (env.bmap bid)) bids := rfl

theorem loadAfter_eq (env : Env) (t0 : LoadT) (bids : List Nat) :
    loadAfter env t0 bids =
      (t0.1 + (bids.map (fun bid => (env.bmap bid).peak)).sum,
       t0.2.1 + (bids.map (fun bid => (env.bmap bid).offpeak)).sum,
       t0.2.2 + (bids.map (fun bid => (env.bmap bid).night)).sum) := by
  induction bids generalizing t0 with
  | nil => simp [loadAfter]
  | cons bid rest ih =>
      rw [loadAfter_cons, ih]
      simp only [List.map_cons, List.sum_cons, addLoad]
      refine Prod.ext ?_ (Prod.ext ?_ ?_) <;> simp <;> ring

/-- What a successful planning pass of `_try_remove` guarantees: one plan
entry per building in order; every target is a real antenna other than the
removed one that can reach its building; and for every target that receives
at least one building, the target's original loads plus everything routed to
it stay within its capacity. -/
theorem planRedistribute_spec (env : Env) (ants : List Antenna) (i : Nat) :
    ∀ (bids : List Nat) (plan0 : List (Nat × Nat)) (temp : List LoadT)
      (plan : List (Nat × Nat)),
      temp.length = ants.length →
      planRedistribute env ants i bids plan0 temp = some plan →
      ∃ pnew, plan = plan0 ++ pnew ∧ pnew.map (fun pr => pr.1) = bids ∧
        (∀ pr ∈ pnew, pr.2 < ants.length ∧ pr.2 ≠ i ∧
          (ants.getD pr.2 default).can_reach (env.bmap pr.1) = true) ∧
        (∀ j, ((pnew.filter (fun pr => pr.2 = j)).map (fun pr => pr.1)) ≠ [] →
          maxLoadT (loadAfter env (temp.getD j (0, 0, 0))
              ((pnew.filter (fun pr => pr.2 = j)).map (fun pr => pr.1)))
            ≤ (ANTENNA_TYPES (ants.getD j default).type).capacity) := by
  intro bids
  induction bids with
  | nil =>
      intro plan0 temp plan _ h
      simp only [planRedistribute, Option.some.injEq] at h
      exact ⟨[], by simp [h.symm], rfl, by simp, by simp⟩
  | cons bid rest ih =>
      intro plan0 temp plan hlen h
      simp only [planRedistribute] at h
      cases hbt : bestTarget ants i temp (env.bmap bid) with
      | none => rw [hbt] at h; cases h
      | some t =>
          rw [hbt] at h
          obtain ⟨ht1, ht2, ht3, ht4⟩ := bestTarget_spec hbt
          obtain ⟨pnew', hplan, hmap, hmem, hcap⟩ :=
            ih (plan0 ++ [(bid, t)]) (temp.modify (fun l => addLoad l (env.bmap bid)) t)
              plan (by rw [List.length_modify]; exact hlen) h
          refine ⟨(bid, t) :: pnew', by simp [hplan], by simp [hmap], ?_, ?_⟩
          · intro pr hpr
            rcases List.mem_cons.mp hpr with rfl | hpr'
            · exact ⟨ht1, ht2, ht3⟩
            · exact hmem pr hpr'
          · intro j hne
            by_cases hjt : t = j
            · subst hjt
              have hfe : ((bid, t) :: pnew').filter (fun pr => pr.2 = t)
                  = (bid, t) :: pnew'.filter (fun pr => pr.2 = t) := by
                simp [List.filter_cons]
              rw [hfe, List.map_cons, loadAfter_cons]
              have htemp : (temp.modify (fun l => addLoad l (env.bmap bid)) t).getD t (0, 0, 0)
                  = addLoad (temp.getD t (0, 0, 0)) (env.bmap bid) := by
                rw [getD_modify]
                rw [if_pos ⟨rfl, by omega⟩]
              by_cases hrest : ((pnew'.filter (fun pr => pr.2 = t)).map (fun pr => pr.1)) = []
              · rw [hrest]
                exact ht4
              · have := hcap t hrest
                rw [htemp] at this
                exact this
            · have hfe : ((bid, t) :: pnew').filter (fun pr => pr.2 = j)
                  = pnew'.filter (fun pr => pr.2 = j) := by
                simp only [List.filter_cons, decide_eq_false_iff_not]
                rw [if_neg (by simpa using hjt)]
              rw [hfe] at hne ⊢
              have := hcap j (by simpa using hne)
              have htemp : (temp.modify (fun l => addLoad l (env.bmap bid)) t).getD j (0, 0, 0)
                  = temp.getD j (0, 0, 0) := by
                rw [getD_modify]
                rw [if_neg (by intro hcon; exact hjt hcon.1)]
              rw [htemp] at this
              exact this

theorem applyExtras_max_load (env : Env) (a : Antenna) (extras : List Nat) :
    (applyExtras env a extras).max_load = maxLoadT (loadAfter env a.loads extras) := by
  rw [loadAfter_eq]
  rfl

theorem commitRemove_eq_zipWith (env : Env) (ants : List Antenna) (i : Nat)
    (plan : List (Nat × Nat)) :
    commitRemove env ants i plan =
      (List.zipWith (applyExtras env) ants
        ((List.range ants.length).map (fun j =>
          (plan.filter (fun pr => pr.2 = j)).map (fun pr => pr.1)))).eraseIdx i := by
  unfold commitRemove
  congr 1
  apply List.ext_getElem
  · simp [List.length_mapIdx, List.length_zipWith]
  · intro n h1 h2
    rw [List.getElem_mapIdx, List.getElem_zipWith, List.getElem_map, List.getElem_range]

/-- C10: `_try_remove` is atomic: on failure the antenna list is returned
exactly as given; on success exactly one antenna is dropped and every other
antenna is only extended — each of the removed antenna's buildings is
appended to some remaining antenna that can reach it, and every receiving
antenna's resulting max per-period load stays within its capacity. -/
theorem tryRemove_atomic (env : Env) (perm : List Nat) (ants : List Antenna)
    (hperm : ∀ k ∈ perm, k < ants.length) :
    ((tryRemove env perm ants).1 = false → (tryRemove env perm ants).2 = ants) ∧
    ((tryRemove env perm ants).1 = true →
      ∃ i, i < ants.length ∧
      ∃ extras : List (List Nat),
        extras.length = ants.length ∧
        (tryRemove env perm ants).2 = (List.zipWith (applyExtras env) ants extras).eraseIdx i ∧
        (∀ bid ∈ (ants.getD i default).buildings, ∃ j, j ≠ i ∧ bid ∈ extras.getD j []) ∧
        (∀ j, ∀ bid ∈ extras.getD j [], j ≠ i ∧ j < ants.length ∧
          bid ∈ (ants.getD i default).buildings ∧
          (ants.getD j default).can_reach (env.bmap bid) = true) ∧
        (∀ j, extras.getD j [] ≠ [] →
          (applyExtras env (ants.getD j default) (extras.getD j [])).max_load
            ≤ (ANTENNA_TYPES (ants.getD j default).type).capacity)) := by
  unfold tryRemove
  by_cases hn : ants.length ≤ 1
  · rw [if_pos hn]
    exact ⟨fun _ => rfl, fun h => Bool.noConfusion h⟩
  · rw [if_neg hn]
    cases hfs : (perm.take 10).findSome? (fun i => tryRemoveOne env ants i) with
    | none => exact ⟨fun _ => rfl, fun h => Bool.noConfusion h⟩
    | some l =>
        refine ⟨fun h => Bool.noConfusion h, fun _ => ?_⟩
        obtain ⟨i, hi_mem, hone⟩ := List.exists_of_findSome?_eq_some hfs
        have hi : i < ants.length := hperm i (List.take_subset 10 perm hi_mem)
        simp only [tryRemoveOne] at hone
        cases hpr : planRedistribute env ants i (ants.getD i default).buildings []
            (ants.map Antenna.loads) with
        | none =>
            rw [hpr] at hone
            exact Option.noConfusion hone
        | some plan =>
            rw [hpr] at hone
            have hone' : (if ((plan.map (fun pr => pr.1)).dedup).length
                  = (ants.getD i default).buildings.length
                then some (commitRemove env ants i plan) else none) = some l := hone
            by_cases hded : ((plan.map (fun pr => pr.1)).dedup).length
                = (ants.getD i default).buildings.length
            · rw [if_pos hded] at hone'
              simp only [Option.some.injEq] at hone' 
              obtain ⟨plan, hplan0, hmap, hmem, hcap⟩ :=
                planRedistribute_spec env ants i (ants.getD i default).buildings []
                  (ants.map Antenna.loads) plan (List.length_map _ _) hpr
              simp only [List.nil_append] at hplan0
              subst hplan0
              refine ⟨i, hi,
                (List.range ants.length).map (fun j =>
                  (plan.filter (fun pr => pr.2 = j)).map (fun pr => pr.1)),
                by simp, ?_, ?_, ?_, ?_⟩
              · rw [← hone', ← commitRemove_eq_zipWith]
              · intro bid hbid
                rw [← hmap] at hbid
                obtain ⟨pr, hprm, hpr1⟩ := List.mem_map.mp hbid
                obtain ⟨hj1, hj2, _⟩ := hmem pr hprm
                refine ⟨pr.2, hj2, ?_⟩
                rw [List.getD_eq_getElem _ _ (by simpa using hj1), List.getElem_map,
                  List.getElem_range]
                exact List.mem_map.mpr ⟨pr, List.mem_filter.mpr ⟨hprm, by simp⟩, hpr1⟩
              · intro j bid hbid
                by_cases hj : j < ants.length
                · rw [List.getD_eq_getElem _ _ (by simpa using hj), List.getElem_map,
                    List.getElem_range] at hbid
                  obtain ⟨pr, hprm, hpr1⟩ := List.mem_map.mp hbid
                  obtain ⟨hprm', hprj⟩ := List.mem_filter.mp hprm
                  obtain ⟨hm1, hm2, hm3⟩ := hmem pr hprm'
                  simp only [decide_eq_true_eq] at hprj
                  subst hprj
                  refine ⟨hm2, hm1, ?_, by rw [hpr1] at hm3; exact hm3⟩
                  rw [← hmap]
                  exact List.mem_map.mpr ⟨pr, hprm', hpr1⟩
                · rw [List.getD_eq_getElem?_getD] at hbid
                  rw [List.getElem?_eq_none_iff.mpr (by simpa using not_lt.mp hj)] at hbid
                  cases hbid
              · intro j hne
                by_cases hj : j < ants.length
                · have hext : ((List.range ants.length).map (fun j =>
                      (plan.filter (fun pr => pr.2 = j)).map (fun pr => pr.1))).getD j []
                      = (plan.filter (fun pr => pr.2 = j)).map (fun pr => pr.1) := by
                    rw [List.getD_eq_getElem _ _ (by simpa using hj), List.getElem_map,
                      List.getElem_range]
                  rw [hext] at hne ⊢
                  have := hcap j hne
                  have htj : (ants.map Antenna.loads).getD j (0, 0, 0)
                      = (ants.getD j default).loads := by
                    rw [List.getD_eq_getElem _ _ (by simpa using hj), List.getElem_map,
                      List.getD_eq_getElem _ _ hj]
                  rw [htj] at this
                  rw [applyExtras_max_load]
                  exact this
                · rw [List.getD_eq_getElem?_getD] at hne
                  rw [List.getElem?_eq_none_iff.mpr (by simpa using not_lt.mp hj)] at hne
                  simp at hne
            · rw [if_neg hded] at hone'
              exact Option.noConfusion hone' 

/-- Dataset and state for the C10 witness: two Nano antennas close enough to
absorb each other's single building. -/
def envR : Env := ⟨[⟨1, 0, 0, 10, 10, 10⟩, ⟨2, 10, 0, 10, 10, 10⟩]⟩

/-- Antenna list for the C10 witness. -/
def antsR : List Antenna :=
  [⟨AType.Nano, 0, 0, [1], 10, 10, 10⟩, ⟨AType.Nano, 10, 0, [2], 10, 10, 10⟩]

/-- Witness for C10 at a concrete state and shuffle order. -/
theorem tryRemove_atomic_witness :
    ((tryRemove envR [0, 1] antsR).1 = false → (tryRemove envR [0, 1] antsR).2 = antsR) ∧
    ((tryRemove envR [0, 1] antsR).1 = true →
      ∃ i, i < antsR.length ∧
      ∃ extras : List (List Nat),
        extras.length = antsR.length ∧
        (tryRemove envR [0, 1] antsR).2
          = (List.zipWith (applyExtras envR) antsR extras).eraseIdx i ∧
        (∀ bid ∈ (antsR.getD i default).buildings, ∃ j, j ≠ i ∧ bid ∈ extras.getD j []) ∧
        (∀ j, ∀ bid ∈ extras.getD j [], j ≠ i ∧ j < antsR.length ∧
          bid ∈ (antsR.getD i default).buildings ∧
          (antsR.getD j default).can_reach (envR.bmap bid) = true) ∧
        (∀ j, extras.getD j [] ≠ [] →
          (applyExtras envR (antsR.getD j default) (extras.getD j [])).max_load
            ≤ (ANTENNA_TYPES (antsR.getD j default).type).capacity)) :=
  tryRemove_atomic envR [0, 1] antsR (by decide)

/-! ## Solution dicts, `Solver._load_solution`, `Solver._is_valid_solution`,
`Solver.step` -/

/-- One entry of a solution's `antennas` list in the exchange format. -/
structure AntDict where
  type : AType
  x : Int
  y : Int
  buildings : List Nat
deriving DecidableEq, Repr

/-- A solution dict (its `antennas` list). -/
abbrev Sol := List AntDict

/-- Stable insertion of a value into an ascending list. -/
def insertSorted (m : Nat) : List Nat → List Nat
  | [] => [m]
  | n :: rest => if m ≤ n then m :: n :: rest else n :: insertSorted m rest

/-- Python `sorted` on a list of ids (ascending insertion sort). -/
def sortNat (l : List Nat) : List Nat := l.foldr insertSorted []

/-- `Solver._to_solution_dict` / `Antenna.to_dict`: buildings are sorted. -/
def toSolutionDict (ants : List Antenna) : Sol :=
  ants.map (fun a => ⟨a.type, a.x, a.y, sortNat a.buildings⟩)

/-- `Solver._load_solution`: rebuild each antenna and recompute its loads
from its buildings (exactly `_add_antenna`'s computation). -/
def loadSolution (env : Env) (sol : Sol) : List Antenna :=
  sol.map (fun d => addAntenna env d.type d.x d.y d.buildings)

/-- `Solver._is_valid_solution`: no duplicate assignment, every building
assigned, every antenna within capacity, every building within range. -/
def isValidSolution (env : Env) (ants : List Antenna) : Bool :=
  let assigned := ants.flatMap (fun a => a.buildings)
  assigned.Nodup &&
  assigned.length = env.buildings.length &&
  ants.all (fun a => a.max_load ≤ (ANTENNA_TYPES a.type).capacity) &&
  ants.all (fun a => a.buildings.all (fun bid =>
    distSq a.x a.y (env.bmap bid).x (env.bmap bid).y ≤ ((ANTENNA_TYPES a.type).range : Int) ^ 2))

/-- Total cost of a solution dict, summed directly over its entries. -/
def solCost (env : Env) (sol : Sol) : Nat :=
  (sol.map (fun d => if (d.x, d.y) ∈ env.building_positions
    then (ANTENNA_TYPES d.type).cost_on else (ANTENNA_TYPES d.type).cost_off)).sum

/-- The per-operator body of `Solver.step`: run the operator on the current
state; when it reports improvement, keep the new state and record it as best
if it is valid, strictly cheaper than the best so far, and positive —
otherwise reload the snapshot taken before the operator ran.  The
accumulator is (current antennas, best solution dict, best cost). -/
def stepFold (env : Env) (st : List Antenna × Sol × Nat)
    (op : List Antenna → Bool × List Antenna) : List Antenna × Sol × Nat :=
  let old_state := toSolutionDict st.1
  let r := op st.1
  if r.1 then
    if isValidSolution env r.2 then
      if computeCost env r.2 < st.2.2 && 0 < computeCost env r.2 then
        (r.2, toSolutionDict r.2, computeCost env r.2)
      else (loadSolution env old_state, st.2.1, st.2.2)
    else (loadSolution env old_state, st.2.1, st.2.2)
  else (r.2, st.2.1, st.2.2)

/-- `Solver.step`: load the solution, run the three operators in order with
commit-if-better bookkeeping, and return the best solution dict. -/
def step (env : Env) (rperm : List Nat) (sol : Sol) : Sol :=
  let ants0 := loadSolution env sol
  (([tryOptimizeType env, tryMerge env, tryRemove env rperm] :
      List (List Antenna → Bool × List Antenna)).foldl (stepFold env)
    (ants0, sol, computeCost env ants0)).2.1

theorem solCost_toSolutionDict (env : Env) (ants : List Antenna) :
    solCost env (toSolutionDict ants) = computeCost env ants := by
  unfold solCost toSolutionDict computeCost Antenna.cost
  rw [List.map_map]
  rfl

theorem stepFold_invariant (env : Env) (sol : Sol) (st : List Antenna × Sol × Nat)
    (op : List Antenna → Bool × List Antenna)
    (h1 : st.2.2 = solCost env st.2.1) (h2 : st.2.2 ≤ solCost env sol) :
    (stepFold env st op).2.2 = solCost env (stepFold env st op).2.1 ∧
    (stepFold env st op).2.2 ≤ solCost env sol := by
  unfold stepFold
  by_cases hr : (op st.1).1
  · rw [if_pos hr]
    by_cases hv : isValidSolution env (op st.1).2
    · rw [if_pos hv]
      by_cases hc : computeCost env (op st.1).2 < st.2.2 && 0 < computeCost env (op st.1).2
      · rw [if_pos hc]
        rw [Bool.and_eq_true, decide_eq_true_eq, decide_eq_true_eq] at hc
        exact ⟨(solCost_toSolutionDict env _).symm, le_trans (le_of_lt hc.1) h2⟩
      · rw [if_neg hc]
        exact ⟨h1, h2⟩
    · rw [if_neg hv]
      exact ⟨h1, h2⟩
  · rw [if_neg hr]
    exact ⟨h1, h2⟩

/-- C1: a local-search `step` never returns a solution dict with total cost
above the input solution's total cost. -/
theorem step_cost_nonincreasing (env : Env) (rperm : List Nat) (sol : Sol) :
    solCost env (step env rperm sol) ≤ solCost env sol := by
  unfold step
  simp only [List.foldl_cons, List.foldl_nil]
  have h0 : (loadSolution env sol, sol, computeCost env (loadSolution env sol)).2.2
      = solCost env (loadSolution env sol, sol, computeCost env (loadSolution env sol)).2.1 := by
    show computeCost env (loadSolution env sol) = solCost env sol
    unfold computeCost loadSolution solCost addAntenna Antenna.cost
    rw [List.map_map]
    rfl
  have h0' : (loadSolution env sol, sol, computeCost env (loadSolution env sol)).2.2
      ≤ solCost env sol := le_of_eq h0
  have s1 := stepFold_invariant env sol _ (tryOptimizeType env) h0 h0'
  have s2 := stepFold_invariant env sol _ (tryMerge env) s1.1 s1.2
  have s3 := stepFold_invariant env sol _ (tryRemove env rperm) s2.1 s2.2
  exact le_of_eq_of_le s3.1.symm s3.2

/-- Dataset for the C2 step-composition instance: one isolated building and a
close pair far away from it. -/
def envS : Env :=
  ⟨[⟨1, 0, 0, 10, 10, 10⟩, ⟨2, 1000, 0, 10, 10, 10⟩, ⟨3, 1010, 0, 10, 10, 10⟩]⟩

/-- Input solution for the C2 instance: an oversized Density antenna and two
on-building Spot antennas. -/
def solS : Sol :=
  [⟨AType.Density, 0, 0, [1]⟩, ⟨AType.Spot, 1000, 0, [2]⟩, ⟨AType.Spot, 1010, 0, [3]⟩]

/-- C2 counterexample: the solution `step` returns differs from the input
and from the result of every single operator applied to the input
(`optimize_type` alone, `merge` alone, and `remove` alone under every
shuffle order of the three antennas): the state is not reset between
operators, so the committed `optimize_type` downgrades and the committed
`merge` both appear in the returned solution. -/
theorem step_single_operator_counterexample :
    step envS [0, 1] solS ≠ solS ∧
    step envS [0, 1] solS ≠ toSolutionDict (tryOptimizeType envS (loadSolution envS solS)).2 ∧
    step envS [0, 1] solS ≠ toSolutionDict (tryMerge envS (loadSolution envS solS)).2 ∧
    (∀ p ∈ [[0, 1, 2], [0, 2, 1], [1, 0, 2], [1, 2, 0], [2, 0, 1], [2, 1, 0]],
      step envS [0, 1] solS ≠ toSolutionDict (tryRemove envS p (loadSolution envS solS)).2) := by
  decide

/-- C2 (amended): `step` keeps each operator's change iff it yields a valid
solution strictly cheaper than the best seen so far, but a committed change
stays in the working state seen by the following operators, so the returned
solution can reflect the composed effects of several operators — on this
instance it equals `optimize_type` followed by `merge`. -/
theorem step_composes_operators :
    step envS [0, 1] solS
      = toSolutionDict (tryMerge envS (tryOptimizeType envS (loadSolution envS solS)).2).2 := by
  decide

/-! ## Cached-load invariant (C6) -/

/-- The cached loads of an antenna match the sums of its buildings'
demands. -/
def loadsOk (env : Env) (a : Antenna) : Prop :=
  a.load_peak = (a.buildings.map (fun bid => (env.bmap bid).peak)).sum ∧
  a.load_offpeak = (a.buildings.map (fun bid => (env.bmap bid).offpeak)).sum ∧
  a.load_night = (a.buildings.map (fun bid => (env.bmap bid).night)).sum

theorem loadsOk_addAntenna (env : Env) (t : AType) (x y : Int) (bids : List Nat) :
    loadsOk env (addAntenna env t x y bids) := ⟨rfl, rfl, rfl⟩

theorem loadsOk_applyExtras {env : Env} {a : Antenna} (extras : List Nat)
    (h : loadsOk env a) : loadsOk env (applyExtras env a extras) := by
  obtain ⟨h1, h2, h3⟩ := h
  refine ⟨?_, ?_, ?_⟩ <;>
    simp [applyExtras, List.map_append, List.sum_append, h1, h2, h3]

theorem loadsOk_optimizeOne {env : Env} {a : Antenna} (h : loadsOk env a) :
    loadsOk env (optimizeOne env a).2 := by
  obtain ⟨hx, hy, hb, hp, ho, hn, _, _⟩ := optimizeOne_shape env a
  exact ⟨by rw [hp, hb]; exact h.1, by rw [ho, hb]; exact h.2.1, by rw [hn, hb]; exact h.2.2⟩

theorem loadsOk_commitRemove {env : Env} {ants : List Antenna} {i : Nat}
    {plan : List (Nat × Nat)} (h : ∀ a ∈ ants, loadsOk env a) :
    ∀ a ∈ commitRemove env ants i plan, loadsOk env a := by
  intro a ha
  unfold commitRemove at ha
  have ha' := List.eraseIdx_subset _ _ ha
  obtain ⟨k, hk, hak⟩ := List.mem_iff_getElem.mp ha'
  rw [List.getElem_mapIdx] at hak
  rw [← hak]
  exact loadsOk_applyExtras _ (h _ (List.getElem_mem _))

theorem loadsOk_mergePair {env : Env} {ants : List Antenna} {i j : Nat} {l : List Antenna}
    (hm : mergePair env ants i j = some l) (h : ∀ a ∈ ants, loadsOk env a) :
    ∀ a ∈ l, loadsOk env a := by
  simp only [mergePair] at hm
  by_cases hd : distSq (ants.getD i default).x (ants.getD i default).y
      (ants.getD j default).x (ants.getD j default).y > 200 ^ 2
  · rw [if_pos hd] at hm; exact Option.noConfusion hm
  · rw [if_neg hd] at hm
    cases hf : ANTENNA_ORDER.find? (fun t =>
        mergedMaxLoad (ants.getD i default) (ants.getD j default)
          ≤ (ANTENNA_TYPES t).capacity) with
    | none => rw [hf] at hm; exact Option.noConfusion hm
    | some t =>
        rw [hf] at hm
        have hm' : (if (((ants.getD i default).buildings
              ++ (ants.getD j default).buildings).all
              (fun bid => distSq
                (centroid env (((ants.getD i default).buildings
                  ++ (ants.getD j default).buildings).dedup)).1
                (centroid env (((ants.getD i default).buildings
                  ++ (ants.getD j default).buildings).dedup)).2
                (env.bmap bid).x (env.bmap bid).y
                  ≤ ((ANTENNA_TYPES t).range : Int) ^ 2)) = true
            then (if (if ((centroid env (((ants.getD i default).buildings
                  ++ (ants.getD j default).buildings).dedup)).1,
                  (centroid env (((ants.getD i default).buildings
                    ++ (ants.getD j default).buildings).dedup)).2) ∈ env.building_positions
                then (ANTENNA_TYPES t).cost_on else (ANTENNA_TYPES t).cost_off)
                  < (ants.getD i default).cost env + (ants.getD j default).cost env
              then some (((ants.eraseIdx j).eraseIdx i) ++ [addAntenna env t
                (centroid env (((ants.getD i default).buildings
                  ++ (ants.getD j default).buildings).dedup)).1
                (centroid env (((ants.getD i default).buildings
                  ++ (ants.getD j default).buildings).dedup)).2
                ((ants.getD i default).buildings ++ (ants.getD j default).buildings)])
              else none)
            else none) = some l := hm
        by_cases hr : (((ants.getD i default).buildings
            ++ (ants.getD j default).buildings).all
            (fun bid => distSq
              (centroid env (((ants.getD i default).buildings
                ++ (ants.getD j default).buildings).dedup)).1
              (centroid env (((ants.getD i default).buildings
                ++ (ants.getD j default).buildings).dedup)).2
              (env.bmap bid).x (env.bmap bid).y
                ≤ ((ANTENNA_TYPES t).range : Int) ^ 2)) = true
        · rw [if_pos hr] at hm'
          by_cases hc : (if ((centroid env (((ants.getD i default).buildings
                ++ (ants.getD j default).buildings).dedup)).1,
                (centroid env (((ants.getD i default).buildings
                  ++ (ants.getD j default).buildings).dedup)).2) ∈ env.building_positions
              then (ANTENNA_TYPES t).cost_on else (ANTENNA_TYPES t).cost_off)
                < (ants.getD i default).cost env + (ants.getD j default).cost env
          · rw [if_pos hc] at hm'
            simp only [Option.some.injEq] at hm'
            intro a ha
            rw [← hm'] at ha
            rcases List.mem_append.mp ha with hin | hnew
            · exact h a (List.eraseIdx_subset _ _ (List.eraseIdx_subset _ _ hin))
            · rcases List.mem_singleton.mp hnew with rfl
              exact loadsOk_addAntenna env _ _ _ _
          · rw [if_neg hc] at hm'
            exact Option.noConfusion hm'
        · rw [if_neg hr] at hm'
          exact Option.noConfusion hm'

/-- C6: after every operation that creates or mutates antennas
(`_add_antenna`, `_load_solution`, `_try_merge`, `_try_remove`,
`_try_optimize_type`), every antenna's cached `load_peak`, `load_offpeak`
and `load_night` equal the sums of its buildings' respective demands (for
the mutating operators, assuming the invariant held beforehand). -/
theorem caches_match_building_sums (env : Env) (t : AType) (x y : Int) (bids : List Nat)
    (sol : Sol) (ants : List Antenna) (perm : List Nat)
    (h : ∀ a ∈ ants, loadsOk env a) :
    loadsOk env (addAntenna env t x y bids) ∧
    (∀ a ∈ loadSolution env sol, loadsOk env a) ∧
    (∀ a ∈ (tryOptimizeType env ants).2, loadsOk env a) ∧
    (∀ a ∈ (tryMerge env ants).2, loadsOk env a) ∧
    (∀ a ∈ (tryRemove env perm ants).2, loadsOk env a) := by
  refine ⟨loadsOk_addAntenna env t x y bids, ?_, ?_, ?_, ?_⟩
  · intro a ha
    obtain ⟨d, _, rfl⟩ := List.mem_map.mp ha
    exact loadsOk_addAntenna env _ _ _ _
  · intro a ha
    unfold tryOptimizeType at ha
    simp only [List.map_map] at ha
    obtain ⟨a0, ha0, rfl⟩ := List.mem_map.mp ha
    exact loadsOk_optimizeOne (h a0 ha0)
  · intro a ha
    unfold tryMerge at ha
    by_cases hl : ants.length < 2
    · rw [if_pos hl] at ha; exact h a ha
    · rw [if_neg hl] at ha
      cases hfs : (pairsList ants.length).findSome? (fun p => mergePair env ants p.1 p.2) with
      | none => rw [hfs] at ha; exact h a ha
      | some l =>
          rw [hfs] at ha
          obtain ⟨p, _, hp⟩ := List.exists_of_findSome?_eq_some hfs
          exact loadsOk_mergePair hp h a ha
  · intro a ha
    unfold tryRemove at ha
    by_cases hn : ants.length ≤ 1
    · rw [if_pos hn] at ha; exact h a ha
    · rw [if_neg hn] at ha
      cases hfs : (perm.take 10).findSome? (fun i => tryRemoveOne env ants i) with
      | none => rw [hfs] at ha; exact h a ha
      | some l =>
          rw [hfs] at ha
          obtain ⟨i, _, hone⟩ := List.exists_of_findSome?_eq_some hfs
          simp only [tryRemoveOne] at hone
          cases hpr : planRedistribute env ants i (ants.getD i default).buildings []
              (ants.map Antenna.loads) with
          | none => rw [hpr] at hone; exact Option.noConfusion hone
          | some plan =>
              rw [hpr] at hone
              have hone' : (if ((plan.map (fun pr => pr.1)).dedup).length
                    = (ants.getD i default).buildings.length
                  then some (commitRemove env ants i plan) else none) = some l := hone
              by_cases hded : ((plan.map (fun pr => pr.1)).dedup).length
                  = (ants.getD i default).buildings.length
              · rw [if_pos hded] at hone'
                simp only [Option.some.injEq] at hone'
                rw [← hone'] at ha
                exact loadsOk_commitRemove h a ha
              · rw [if_neg hded] at hone'
                exact Option.noConfusion hone'

instance (env : Env) (a : Antenna) : Decidable (loadsOk env a) := by
  unfold loadsOk
  infer_instance

/-- Witness for C6 at concrete inputs. -/
theorem caches_match_building_sums_witness :
    loadsOk envR (addAntenna envR AType.Nano 0 0 [1]) ∧
    (∀ a ∈ loadSolution envR [⟨AType.Nano, 0, 0, [1]⟩], loadsOk envR a) ∧
    (∀ a ∈ (tryOptimizeType envR antsR).2, loadsOk envR a) ∧
    (∀ a ∈ (tryMerge envR antsR).2, loadsOk envR a) ∧
    (∀ a ∈ (tryRemove envR [0, 1] antsR).2, loadsOk envR a) :=
  caches_match_building_sums envR AType.Nano 0 0 [1] [⟨AType.Nano, 0, 0, [1]⟩] antsR [0, 1]
    (by decide)

/-! ## `Solver.generate_candidate` (C7) -/

/-- The greedy bin-packing of `_find_coverable`: walk the demand-sorted
reachable buildings, taking each one whose addition keeps the running max
per-period load within capacity. -/
def packGreedy (env : Env) (capacity : Nat) : List Nat → LoadT → List Nat
  | [], _ => []
  | bid :: rest, loads =>
      let nl := addLoad loads (env.bmap bid)
      if maxLoadT nl ≤ capacity then bid :: packGreedy env capacity rest nl
      else packGreedy env capacity rest loads

/-- `Solver._find_coverable`: spatial-index candidates, exact range and
membership filter, stable sort by descending `max_demand`, greedy packing. -/
def findCoverable (env : Env) (x y : Int) (t : AType) (candidates : List Nat) : List Nat :=
  let reachable := (sNearby 100 env.spatialInserts x y ((ANTENNA_TYPES t).range : Int)).filter
    (fun bid => decide (bid ∈ candidates) &&
      decide (distSq x y (env.bmap bid).x (env.bmap bid).y
        ≤ ((ANTENNA_TYPES t).range : Int) ^ 2))
  let sorted := reachable.insertionSort
    (fun a b => (env.bmap b).max_demand ≤ (env.bmap a).max_demand)
  packGreedy env (ANTENNA_TYPES t).capacity sorted (0, 0, 0)

/-- `Solver._generate_antenna_candidates`: up to 20 sampled uncovered
buildings tried with every type, plus (when at least 5 remain) the centroid
tried with the three larger types; empty covered sets are skipped. -/
def genCandidates (env : Env) (sampler : List Nat → Nat → List Nat)
    (uncovered : List Nat) : List (AType × Int × Int × List Nat) :=
  let sampled := sampler uncovered (min uncovered.length 20)
  let cands1 := sampled.flatMap (fun bid =>
    ANTENNA_ORDER.filterMap (fun t =>
      let covered := findCoverable env (env.bmap bid).x (env.bmap bid).y t uncovered
      if covered = [] then none else some (t, (env.bmap bid).x, (env.bmap bid).y, covered)))
  let cands2 := if 5 ≤ uncovered.length then
      [AType.Spot, AType.Density, AType.MaxRange].filterMap (fun t =>
        let covered := findCoverable env (centroid env uncovered).1
          (centroid env uncovered).2 t uncovered
        if covered = [] then none
        else some (t, (centroid env uncovered).1, (centroid env uncovered).2, covered))
    else []
  cands1 ++ cands2

/-- The cost of a candidate antenna placement. -/
def candCost (env : Env) (c : AType × Int × Int × List Nat) : Nat :=
  if (c.2.1, c.2.2.1) ∈ env.building_positions then (ANTENNA_TYPES c.1).cost_on
  else (ANTENNA_TYPES c.1).cost_off

/-- One comparison step of the best-score selection: Python skips empty
covers (`if not covered_ids: continue`) and otherwise compares
`len(covered)/cost` with strict `>`, rendered here by cross-multiplication
(the initial best score of -1 makes any nonempty candidate beat an absent
incumbent). -/
def pbStep (env : Env) (acc : Option (AType × Int × Int × List Nat))
    (c : AType × Int × Int × List Nat) : Option (AType × Int × Int × List Nat) :=
  if c.2.2.2 = [] then acc
  else match acc with
    | none => some c
    | some b => if c.2.2.2.length * candCost env b > b.2.2.2.length * candCost env c
        then some c else acc

/-- The best-score selection of `generate_candidate`. -/
def pickBest (env : Env) (cands : List (AType × Int × Int × List Nat)) :
    Option (AType × Int × Int × List Nat) :=
  cands.foldl (pbStep env) none

/-- `Solver._best_antenna_type_for_demand`. -/
def bestTypeForDemand (demand : Nat) : AType :=
  (ANTENNA_ORDER.find? (fun t => demand ≤ (ANTENNA_TYPES t).capacity)).getD AType.MaxRange

/-- The fallback of `generate_candidate`: one antenna per remaining
building. -/
def fallbackPlace (env : Env) (uncovered : List Nat) : List Antenna :=
  uncovered.map (fun bid =>
    addAntenna env (bestTypeForDemand (env.bmap bid).max_demand)
      (env.bmap bid).x (env.bmap bid).y [bid])

theorem packGreedy_sublist (env : Env) (capacity : Nat) :
    ∀ (l : List Nat) (loads : LoadT), (packGreedy env capacity l loads).Sublist l := by
  intro l
  induction l with
  | nil => intro loads; exact List.Sublist.refl []
  | cons bid rest ih =>
      intro loads
      unfold packGreedy
      by_cases hc : maxLoadT (addLoad loads (env.bmap bid)) ≤ capacity
      · rw [if_pos hc]
        exact List.Sublist.cons₂ bid (ih _)
      · rw [if_neg hc]
        exact List.Sublist.cons bid (ih _)

theorem findCoverable_subset (env : Env) (x y : Int) (t : AType) (candidates : List Nat) :
    ∀ bid ∈ findCoverable env x y t candidates, bid ∈ candidates := by
  intro bid hbid
  unfold findCoverable at hbid
  have h1 := (packGreedy_sublist env _ _ _).subset hbid
  have h2 := (List.perm_insertionSort
    (fun a b => (env.bmap b).max_demand ≤ (env.bmap a).max_demand) _).subset h1
  have h3 := List.mem_filter.mp h2
  have := h3.2
  simp only [Bool.and_eq_true, decide_eq_true_eq] at this
  exact this.1

theorem findCoverable_nodup (env : Env) (x y : Int) (t : AType) (candidates : List Nat) :
    (findCoverable env x y t candidates).Nodup := by
  unfold findCoverable
  refine (packGreedy_sublist env _ _ _).nodup ?_
  refine (List.perm_insertionSort _ _).nodup_iff.mpr ?_
  exact List.Nodup.filter _ (List.nodup_dedup _)

theorem genCandidates_covered (env : Env) (sampler : List Nat → Nat → List Nat)
    (uncovered : List Nat) :
    ∀ c ∈ genCandidates env sampler uncovered,
      (∀ bid ∈ c.2.2.2, bid ∈ uncovered) ∧ c.2.2.2.Nodup := by
  intro c hc
  unfold genCandidates at hc
  rcases List.mem_append.mp hc with h1 | h2
  · obtain ⟨bid, _, hf⟩ := List.mem_flatMap.mp h1
    obtain ⟨t, _, hsome⟩ := List.mem_filterMap.mp hf
    by_cases he : findCoverable env (env.bmap bid).x (env.bmap bid).y t uncovered = []
    · rw [if_pos he] at hsome; cases hsome
    · rw [if_neg he] at hsome
      simp only [Option.some.injEq] at hsome
      rw [← hsome]
      exact ⟨findCoverable_subset env _ _ t uncovered, findCoverable_nodup env _ _ t uncovered⟩
  · by_cases h5 : 5 ≤ uncovered.length
    · rw [if_pos h5] at h2
      obtain ⟨t, _, hsome⟩ := List.mem_filterMap.mp h2
      by_cases he : findCoverable env (centroid env uncovered).1
          (centroid env uncovered).2 t uncovered = []
      · rw [if_pos he] at hsome; cases hsome
      · rw [if_neg he] at hsome
        simp only [Option.some.injEq] at hsome
        rw [← hsome]
        exact ⟨findCoverable_subset env _ _ t uncovered, findCoverable_nodup env _ _ t uncovered⟩
    · rw [if_neg h5] at h2; cases h2

theorem pbStep_spec {env : Env} {P : (AType × Int × Int × List Nat) → Prop}
    {acc : Option (AType × Int × Int × List Nat)} {c : AType × Int × Int × List Nat}
    (hacc : ∀ b, acc = some b → P b ∧ b.2.2.2 ≠ []) (hc : P c) :
    ∀ b, pbStep env acc c = some b → P b ∧ b.2.2.2 ≠ [] := by
  intro b h
  unfold pbStep at h
  by_cases he : c.2.2.2 = []
  · rw [if_pos he] at h; exact hacc b h
  · rw [if_neg he] at h
    cases ha : acc with
    | none =>
        rw [ha] at h
        simp only [Option.some.injEq] at h
        exact h ▸ ⟨hc, he⟩
    | some b0 =>
        rw [ha] at h
        by_cases hgt : c.2.2.2.length * candCost env b0 > b0.2.2.2.length * candCost env c
        · simp only [hgt, if_true, Option.some.injEq] at h
          exact h ▸ ⟨hc, he⟩
        · simp only [hgt, if_false, Option.some.injEq] at h
          exact h ▸ hacc b0 ha

theorem pickBest_foldl_spec {env : Env} {P : (AType × Int × Int × List Nat) → Prop} :
    ∀ (cands : List (AType × Int × Int × List Nat))
      (acc : Option (AType × Int × Int × List Nat)),
      (∀ b, acc = some b → P b ∧ b.2.2.2 ≠ []) → (∀ c ∈ cands, P c) →
      ∀ b, cands.foldl (pbStep env) acc = some b → P b ∧ b.2.2.2 ≠ [] := by
  intro cands
  induction cands with
  | nil => intro acc hacc _ b h; exact hacc b h
  | cons c rest ih =>
      intro acc hacc hP b h
      simp only [List.foldl_cons] at h
      exact ih (pbStep env acc c)
        (pbStep_spec hacc (hP c (List.mem_cons_self _ _)))
        (fun x hx => hP x (List.mem_cons_of_mem _ hx)) b h

/-- A successful `pickBest` returns a candidate from the list with a
nonempty cover. -/
theorem pickBest_spec {env : Env} {cands : List (AType × Int × Int × List Nat)}
    {c : AType × Int × Int × List Nat} (h : pickBest env cands = some c) :
    c ∈ cands ∧ c.2.2.2 ≠ [] :=
  pickBest_foldl_spec cands none (fun b hb => Option.noConfusion hb)
    (fun _ hx => hx) c h

theorem filter_remove_lt {l covered : List Nat} (hne : covered ≠ [])
    (hsub : ∀ b ∈ covered, b ∈ l) :
    (l.filter (fun bid => decide (bid ∉ covered))).length < l.length := by
  refine List.length_filter_lt_length_iff_exists.mpr ?_
  rcases covered with _ | ⟨b0, rest⟩
  · exact absurd rfl hne
  · exact ⟨b0, hsub b0 (List.mem_cons_self _ _), by simp⟩

/-- The greedy set-cover loop of `Solver.generate_candidate`: while buildings
remain uncovered, place the best-scoring candidate antenna and strike its
covered buildings; if no candidate covers anything, fall back to one antenna
per remaining building. -/
def generateLoop (env : Env) (sampler : List Nat → Nat → List Nat)
    (uncovered : List Nat) : List Antenna :=
  if h0 : uncovered = [] then []
  else
    match hpb : pickBest env (genCandidates env sampler uncovered) with
    | none => fallbackPlace env uncovered
    | some c =>
        addAntenna env c.1 c.2.1 c.2.2.1 c.2.2.2 ::
          generateLoop env sampler (uncovered.filter (fun bid => decide (bid ∉ c.2.2.2)))
termination_by uncovered.length
decreasing_by
  exact filter_remove_lt (pickBest_spec hpb).2
    (fun b hb => (genCandidates_covered env sampler uncovered c (pickBest_spec hpb).1).1 b hb)

/-- `Solver.generate_candidate`: run the loop starting from the set of all
building ids. -/
def generateCandidate (env : Env) (sampler : List Nat → Nat → List Nat) : List Antenna :=
  generateLoop env sampler ((env.buildings.map (fun b => b.id)).dedup)

theorem flatten_map_singleton {α : Type} (u : List α) :
    (u.map (fun a => [a])).flatten = u := by
  induction u with
  | nil => rfl
  | cons a rest ihr => simp [ihr]

theorem generateLoop_perm (env : Env) (sampler : List Nat → Nat → List Nat) :
    ∀ (n : Nat) (uncovered : List Nat), uncovered.length ≤ n → uncovered.Nodup →
      ((generateLoop env sampler uncovered).flatMap (fun a => a.buildings)).Perm uncovered := by
  intro n
  induction n with
  | zero =>
      intro u hu _
      have h0 : u = [] := List.length_eq_zero.mp (Nat.le_zero.mp hu)
      subst h0
      rw [generateLoop]
      simp
  | succ n ih =>
      intro u hu hnd
      by_cases h0 : u = []
      · subst h0
        rw [generateLoop]
        simp
      · rw [generateLoop, dif_neg h0]
        split
        · next heq =>
            unfold fallbackPlace
            rw [List.flatMap_def, List.map_map]
            have : ((fun a => a.buildings) ∘ fun bid =>
                addAntenna env (bestTypeForDemand (env.bmap bid).max_demand)
                  (env.bmap bid).x (env.bmap bid).y [bid]) = fun bid => [bid] := rfl
            rw [this, flatten_map_singleton]
        · next c heq =>
            have hcov := pickBest_spec heq
            have hgc := genCandidates_covered env sampler u c hcov.1
            have hsub := hgc.1
            have hndC := hgc.2
            simp only [List.flatMap_cons]
            have hbuild : (addAntenna env c.1 c.2.1 c.2.2.1 c.2.2.2).buildings = c.2.2.2 := rfl
            rw [hbuild]
            have hlt : (u.filter (fun bid => decide (bid ∉ c.2.2.2))).length < u.length :=
              filter_remove_lt hcov.2 hsub
            have hrec := ih (u.filter (fun bid => decide (bid ∉ c.2.2.2)))
              (by omega) (List.Nodup.filter _ hnd)
            refine (hrec.append_left c.2.2.2).trans ?_
            refine (List.perm_ext_iff_of_nodup ?_ hnd).mpr ?_
            · refine List.Nodup.append hndC (List.Nodup.filter _ hnd) ?_
              intro b hb hbf
              have := List.mem_filter.mp hbf
              simp only [decide_eq_true_eq] at this
              exact this.2 hb
            · intro a
              constructor
              · intro ha
                rcases List.mem_append.mp ha with h1 | h2
                · exact hsub a h1
                · exact (List.mem_filter.mp h2).1
              · intro ha
                by_cases hc : a ∈ c.2.2.2
                · exact List.mem_append.mpr (Or.inl hc)
                · refine List.mem_append.mpr (Or.inr ?_)
                  refine List.mem_filter.mpr ⟨ha, by simpa using hc⟩

/-- C7: the solution the constructive generator produces partitions the
building ids: the union of the antennas' building lists is exactly the set
of ids of the dataset's buildings, and the antennas' building lists are
pairwise disjoint (and individually duplicate-free). -/
theorem generateCandidate_partition (env : Env) (sampler : List Nat → Nat → List Nat) :
    (∀ bid, bid ∈ (generateCandidate env sampler).flatMap (fun a => a.buildings) ↔
        bid ∈ env.buildings.map (fun b => b.id)) ∧
    (∀ a ∈ generateCandidate env sampler, a.buildings.Nodup) ∧
    List.Pairwise (fun a1 a2 => List.Disjoint a1.buildings a2.buildings)
      (generateCandidate env sampler) := by
  have hperm : ((generateCandidate env sampler).flatMap (fun a => a.buildings)).Perm
      ((env.buildings.map (fun b => b.id)).dedup) := by
    unfold generateCandidate
    exact generateLoop_perm env sampler ((env.buildings.map (fun b => b.id)).dedup).length
      ((env.buildings.map (fun b => b.id)).dedup) le_rfl (List.nodup_dedup _)
  have hnd : ((generateCandidate env sampler).flatMap (fun a => a.buildings)).Nodup :=
    hperm.nodup_iff.mpr (List.nodup_dedup _)
  rw [List.flatMap_def, List.nodup_flatten] at hnd
  refine ⟨?_, ?_, ?_⟩
  · intro bid
    rw [hperm.mem_iff, List.mem_dedup]
  · intro a ha
    exact hnd.1 a.buildings (List.mem_map.mpr ⟨a, ha, rfl⟩)
  · exact (List.pairwise_map).mp hnd.2

/-- Witness for the amended C3 theorem at a concrete state. -/
theorem tryOptimizeType_nonincreasing_witness :
    List.Forall₂ (fun a' a => a'.cost envR ≤ a.cost envR ∧ a'.buildings = a.buildings ∧
        a'.x = a.x ∧ a'.y = a.y ∧ (a'.type ≠ a.type → typeIdx a'.type < typeIdx a.type))
      ((tryOptimizeType envR antsR).2) antsR :=
  tryOptimizeType_nonincreasing envR antsR

/-- Witness for C7 at a concrete dataset and sampler. -/
theorem generateCandidate_partition_witness :
    (∀ bid, bid ∈ (generateCandidate envR (fun l k => l.take k)).flatMap
        (fun a => a.buildings) ↔ bid ∈ envR.buildings.map (fun b => b.id)) ∧
    (∀ a ∈ generateCandidate envR (fun l k => l.take k), a.buildings.Nodup) ∧
    List.Pairwise (fun a1 a2 => List.Disjoint a1.buildings a2.buildings)
      (generateCandidate envR (fun l k => l.take k)) :=
  generateCandidate_partition envR (fun l k => l.take k)
